import Mathlib

set_option maxHeartbeats 1000000

/-
Verification of the rust-smc register codec, key/fan walkers and fan
subsystem.  Definitions are shallow embeddings of the Rust sources
(src/types.rs, src/util.rs, src/keys.rs, src/fans.rs, src/error.rs);
the missing crate-root facade of the final module layout (the SMC
struct with its SMCVal buffer, read_key and write_key plumbing) is
modelled from the specification where indicated.

Machine integers are modelled as ℕ / ℤ with explicit bounds; a finite
f32 is modelled exactly as a sign bit plus a rational magnitude (the
operations the code performs on floats — multiplication by a power of
two, truncating saturating casts to u16/i16, and exact division of a
small integer by a power of two — are exact on this model for every
finite f32 input).
-/

/- Type tags, src/types.rs lines 7-16.  A FourCharCode is modelled as its
four-character string; equality is byte-exact. -/

def TYPE_FLAG : String := "flag"

def TYPE_I8 : String := "si8 "

def TYPE_U8 : String := "ui8 "

def TYPE_I16 : String := "si16"

def TYPE_U16 : String := "ui16"

def TYPE_I32 : String := "si32"

def TYPE_U32 : String := "ui32"

def TYPE_FLT : String := "flt "

def TYPE_FPE2 : String := "fpe2"

def TYPE_SP78 : String := "sp78"

/-- Modelled from the spec: the FixedBuffer (SMCVal) of section 3 — the
struct definition itself is not under src/ (only its users are): a type
tag, a valid length (`size`, what `len()` returns), and the backing
bytes (each a u8, i.e. `< 256`; reads coerce with `% 256` to keep the
model total). -/
structure SMCVal where
  type : String
  size : ℕ
  bytes : List ℕ
  deriving DecidableEq

/-- Error enum, src/error.rs lines 7-18 (the payload of InvalidKey is
reduced to a message string; it never matters to the claims). -/
inductive SMCError where
  | driverNotFound
  | openFailed
  | invalidKey (msg : String)
  | keyNotFound (code : String)
  | notPrivileged
  | tryFrom (val : SMCVal)
  | tryInto
  | unknown (ioRes : ℤ) (smcRes : ℕ)
  | sysctl (errno : ℤ)
  deriving DecidableEq

deriving instance DecidableEq for Except

/-- Model of a finite f32: IEEE sign bit plus exact magnitude.  The value
of the float is `val`; `is_sign_negative()` is `sign`.  (NaN and the
infinities are outside the model; every operation the embedded code
performs is exact on finite floats, see the header comment.) -/
structure F32 where
  sign : Bool
  mag : ℚ
  deriving DecidableEq

def F32.val (x : F32) : ℚ := if x.sign then -x.mag else x.mag

/-- Truncation toward zero of an exact rational, i.e. the value produced
by Rust's float-to-integer `as` cast before saturation. -/
def qtrunc (q : ℚ) : ℤ := Int.tdiv q.num q.den

/-- Rust `as u16` on a finite float value: truncate toward zero,
saturating into [0, 65535]. -/
def f32CastU16 (x : ℚ) : ℕ := (max 0 (min 65535 (qtrunc x))).toNat

/-- Rust `as i16` on a finite float value: truncate toward zero,
saturating into [-32768, 32767]. -/
def f32CastI16 (x : ℚ) : ℤ := max (-32768) (min 32767 (qtrunc x))

/-- Big-endian u16 read of the first two buffer bytes
(`u16::from_be(*ptr)` on the buffer data). -/
def be16bytes : List ℕ → ℕ
  | b0 :: b1 :: _ => b0 % 256 * 256 + b1 % 256
  | _ => 0

/-- Copy of `to_be_bytes()` of a u16 into the first two buffer bytes
(`core::ptr::copy_nonoverlapping(..., val.data_mut().as_mut_ptr(), 2)`). -/
def setBE16 (val : SMCVal) (w : ℕ) : SMCVal :=
  match val.bytes with
  | _ :: _ :: rest => { val with bytes := w / 256 % 256 :: w % 256 :: rest }
  | bs => { val with bytes := bs }

/-- Copy of `to_be_bytes()` of a u32 into the first four buffer bytes. -/
def setBE32 (val : SMCVal) (w : ℕ) : SMCVal :=
  match val.bytes with
  | _ :: _ :: _ :: _ :: rest =>
      { val with
        bytes := w / 16777216 % 256 :: w / 65536 % 256 :: w / 256 % 256 :: w % 256 :: rest }
  | bs => { val with bytes := bs }

/-- Two's-complement 16-bit reinterpretation: `i16::from_be` of the raw
big-endian u16 word. -/
def toSigned16 (w : ℕ) : ℤ := if w < 32768 then (w : ℤ) else (w : ℤ) - 65536

/-- src/util.rs `write_f32`, lines 6-43.  Returns the success flag
together with the resulting buffer; on `None` the buffer is the
untouched input, mirroring the early `return None` before any write.
The `(TYPE_FLT, 4)` arm copies the IEEE-754 bit pattern of the float;
bit-level float layout is not modelled (no claim concerns the `flt `
tag), so that arm is outside this embedding and falls to the default. -/
def write_f32 (n : F32) (val : SMCVal) : Option Unit × SMCVal :=
  if val.type = TYPE_FPE2 ∧ val.size = 2 then
    if n.sign then (none, val)
    else (some (), setBE16 val (f32CastU16 (n.val * 4)))
  else if val.type = TYPE_SP78 ∧ val.size = 2 then
    (some (), setBE16 val ((f32CastI16 (n.val * 256) % 65536).toNat))
  else (none, val)

/-- src/util.rs `write_u32`, lines 45-57. -/
def write_u32 (n : ℕ) (val : SMCVal) : Option SMCVal :=
  if val.type = TYPE_U32 ∧ val.size = 4 then some (setBE32 val n) else none

/-- src/util.rs `write_i32`, lines 59-71 (the i32 is stored as its
two's-complement 32-bit word). -/
def write_i32 (z : ℤ) (val : SMCVal) : Option SMCVal :=
  if val.type = TYPE_I32 ∧ val.size = 4 then some (setBE32 val (z % 4294967296).toNat)
  else none

/-- src/util.rs `write_u16`, lines 73-87. -/
def write_u16 (n : ℕ) (val : SMCVal) : Option SMCVal :=
  if val.type = TYPE_U16 ∧ val.size = 2 then some (setBE16 val n)
  else if val.type = TYPE_I32 ∧ val.size = 4 then write_i32 (n : ℤ) val
  else if val.type = TYPE_U32 ∧ val.size = 4 then write_u32 n val
  else none

/-- src/types.rs `impl FromSMC for f32`, lines 131-142.  As in
`write_f32`, the `(TYPE_FLT, 4)` arm (IEEE bit-pattern read) is outside
the model and falls to the default. -/
def f32_from_smc (val : SMCVal) : Option ℚ :=
  if val.type = TYPE_FPE2 ∧ val.size = 2 then
    some ((be16bytes val.bytes : ℚ) / 4)
  else if val.type = TYPE_SP78 ∧ val.size = 2 then
    some ((toSigned16 (be16bytes val.bytes) : ℚ) / 256)
  else none

/-- src/types.rs `impl FromSMC for u16`, lines 62-72. -/
def u16_from_smc (val : SMCVal) : Option ℕ :=
  if val.type = TYPE_U8 ∧ val.size = 1 then
    some (match val.bytes with | b :: _ => b % 256 | _ => 0)
  else if val.type = TYPE_U16 ∧ val.size = 2 then some (be16bytes val.bytes)
  else none

/-- The zeroed 32-byte backing array of a fresh SMCVal/SMCBytes. -/
def zeros32 : List ℕ := List.replicate 32 0

/- Arithmetic bridge lemmas for the codec proofs. -/

lemma qtrunc_eq_floor (q : ℚ) (h : 0 ≤ q) : qtrunc q = ⌊q⌋ := by
  rw [qtrunc, Rat.floor_def, Int.tdiv_eq_ediv (Rat.num_nonneg.mpr h) (Int.natCast_nonneg q.den)]

lemma be16bytes_cons (w : ℕ) (rest : List ℕ) (hw : w < 65536) :
    be16bytes (w / 256 % 256 :: w % 256 :: rest) = w := by
  simp only [be16bytes]
  omega

lemma toSigned16_twos (z : ℤ) (h1 : -32768 ≤ z) (h2 : z ≤ 32767) :
    toSigned16 ((z % 65536).toNat) = z := by
  have ha : 0 ≤ z % 65536 := Int.emod_nonneg z (by decide)
  have hb : z % 65536 < 65536 := Int.emod_lt_of_pos z (by decide)
  simp only [toSigned16]
  split <;> omega

lemma f32CastI16_lb (x : ℚ) : -32768 ≤ f32CastI16 x := le_max_left _ _

lemma f32CastI16_ub (x : ℚ) : f32CastI16 x ≤ 32767 :=
  max_le (by decide) (min_le_left _ _)

/-- C6: for a non-negative float v with v*4 ≤ 65535, encoding v into an
fpe2-tagged length-2 buffer succeeds and decoding the written buffer
back yields exactly ⌊v*4⌋/4 (truncation of v*4 equals its floor because
v is non-negative).  Confirms the claim. -/
theorem C6_fpe2_roundtrip_floor (v : F32) (b : SMCVal)
    (htype : b.type = TYPE_FPE2) (hsize : b.size = 2) (hlen : 2 ≤ b.bytes.length)
    (hsign : v.sign = false) (hmag : 0 ≤ v.mag) (hran : v.val * 4 ≤ 65535) :
    (write_f32 v b).1 = some () ∧
      f32_from_smc (write_f32 v b).2 = some ((⌊v.val * 4⌋ : ℚ) / 4) := by
  have hval : v.val = v.mag := by simp [F32.val, hsign]
  have hx0 : 0 ≤ v.val * 4 := by rw [hval]; positivity
  have hfl0 : 0 ≤ ⌊v.val * 4⌋ := Int.floor_nonneg.mpr hx0
  have hfl1 : ⌊v.val * 4⌋ ≤ 65535 := by
    have := Int.floor_le_floor hran
    simpa using this
  have hcast : f32CastU16 (v.val * 4) = ⌊v.val * 4⌋.toNat := by
    rw [f32CastU16, qtrunc_eq_floor _ hx0, min_eq_right hfl1, max_eq_right hfl0]
  have hw : ⌊v.val * 4⌋.toNat < 65536 := by omega
  rcases hbs : b.bytes with _ | ⟨b0, tl⟩
  · rw [hbs] at hlen; simp at hlen
  rcases tl with _ | ⟨b1, rest⟩
  · rw [hbs] at hlen; simp at hlen
  have hwr : write_f32 v b =
      (some (), { b with bytes :=
        ⌊v.val * 4⌋.toNat / 256 % 256 :: ⌊v.val * 4⌋.toNat % 256 :: rest }) := by
    rw [write_f32, if_pos ⟨htype, hsize⟩, hsign]
    simp only [Bool.false_eq_true, if_false, hcast, setBE16, hbs]
  refine ⟨by rw [hwr], ?_⟩
  rw [hwr]
  rw [f32_from_smc]
  rw [if_pos ⟨htype, hsize⟩]
  rw [show ({ b with bytes :=
        ⌊v.val * 4⌋.toNat / 256 % 256 :: ⌊v.val * 4⌋.toNat % 256 :: rest } : SMCVal).bytes =
      ⌊v.val * 4⌋.toNat / 256 % 256 :: ⌊v.val * 4⌋.toNat % 256 :: rest from rfl]
  rw [be16bytes_cons _ _ hw]
  rw [show ((⌊v.val * 4⌋.toNat : ℕ) : ℚ) = ((⌊v.val * 4⌋ : ℤ) : ℚ) by
    exact_mod_cast Int.toNat_of_nonneg hfl0]

/-- C6 witness: the claim theorem applied at v = 11/10 (the exact value
used by the spec's "encoding 1.1" example) over a zeroed fpe2 buffer. -/
theorem C6_witness :
    (((⟨TYPE_FPE2, 2, zeros32⟩ : SMCVal)).type = TYPE_FPE2 ∧
      (0 : ℚ) ≤ (⟨false, Rat.divInt 11 10⟩ : F32).mag) ∧
    (write_f32 ⟨false, Rat.divInt 11 10⟩ ⟨TYPE_FPE2, 2, zeros32⟩).1 = some () ∧
      f32_from_smc (write_f32 ⟨false, Rat.divInt 11 10⟩ ⟨TYPE_FPE2, 2, zeros32⟩).2 =
        some ((⌊(⟨false, Rat.divInt 11 10⟩ : F32).val * 4⌋ : ℚ) / 4) :=
  ⟨⟨rfl, by decide⟩,
    C6_fpe2_roundtrip_floor ⟨false, Rat.divInt 11 10⟩ ⟨TYPE_FPE2, 2, zeros32⟩ rfl rfl
      (by decide) rfl (by decide)
      (by rw [show (⟨false, Rat.divInt 11 10⟩ : F32).val = Rat.divInt 11 10 from rfl,
            Rat.divInt_eq_div]; norm_num)⟩

/-- C7: encoding any float into an fpe2-tagged length-2 buffer succeeds
exactly when the float's sign bit is clear (Rust's
`is_sign_negative()`), and a failed encode leaves the buffer untouched.
Confirms the claim ("non-negative" read as the sign-bit test the code
performs). -/
theorem C7_fpe2_sign_gate (v : F32) (b : SMCVal)
    (htype : b.type = TYPE_FPE2) (hsize : b.size = 2) :
    ((write_f32 v b).1.isSome ↔ v.sign = false) ∧
      (v.sign = true → (write_f32 v b).2 = b) := by
  rw [write_f32, if_pos ⟨htype, hsize⟩]
  cases hs : v.sign <;> simp

/-- C7 witness: the claim theorem applied to the negative float -1 and a
zeroed fpe2 buffer. -/
theorem C7_witness :
    ((⟨TYPE_FPE2, 2, zeros32⟩ : SMCVal)).type = TYPE_FPE2 ∧
    (((write_f32 ⟨true, 1⟩ ⟨TYPE_FPE2, 2, zeros32⟩).1.isSome ↔
        (⟨true, (1 : ℚ)⟩ : F32).sign = false) ∧
      ((⟨true, (1 : ℚ)⟩ : F32).sign = true →
        (write_f32 ⟨true, 1⟩ ⟨TYPE_FPE2, 2, zeros32⟩).2 = ⟨TYPE_FPE2, 2, zeros32⟩)) :=
  ⟨rfl, C7_fpe2_sign_gate ⟨true, 1⟩ ⟨TYPE_FPE2, 2, zeros32⟩ rfl rfl⟩

/-- C1 (amended): encoding any float into an sp78-tagged length-2 buffer
succeeds, and decoding the written buffer back yields the quantized
value t/256 where t truncates v*256 toward zero and saturates it into
the i16 range [-32768, 32767] — not round(v*256)/256 as the original
claim states. -/
theorem C1_sp78_roundtrip_trunc (v : F32) (b : SMCVal)
    (htype : b.type = TYPE_SP78) (hsize : b.size = 2) (hlen : 2 ≤ b.bytes.length) :
    (write_f32 v b).1 = some () ∧
      f32_from_smc (write_f32 v b).2 = some ((f32CastI16 (v.val * 256) : ℚ) / 256) := by
  have hne : ¬(b.type = TYPE_FPE2 ∧ b.size = 2) := by
    rw [htype]; rintro ⟨h, -⟩; exact absurd h (by decide)
  have hz1 : -32768 ≤ f32CastI16 (v.val * 256) := f32CastI16_lb _
  have hz2 : f32CastI16 (v.val * 256) ≤ 32767 := f32CastI16_ub _
  have ha : 0 ≤ f32CastI16 (v.val * 256) % 65536 :=
    Int.emod_nonneg _ (by decide)
  have hb' : f32CastI16 (v.val * 256) % 65536 < 65536 :=
    Int.emod_lt_of_pos _ (by decide)
  have hw : (f32CastI16 (v.val * 256) % 65536).toNat < 65536 := by omega
  rcases hbs : b.bytes with _ | ⟨b0, tl⟩
  · rw [hbs] at hlen; simp at hlen
  rcases tl with _ | ⟨b1, rest⟩
  · rw [hbs] at hlen; simp at hlen
  have hwr : write_f32 v b =
      (some (), { b with bytes :=
        (f32CastI16 (v.val * 256) % 65536).toNat / 256 % 256 ::
          (f32CastI16 (v.val * 256) % 65536).toNat % 256 :: rest }) := by
    rw [write_f32, if_neg hne, if_pos ⟨htype, hsize⟩]
    simp only [setBE16, hbs]
  refine ⟨by rw [hwr], ?_⟩
  rw [hwr, f32_from_smc]
  rw [if_neg (by rw [show ({ b with bytes :=
        (f32CastI16 (v.val * 256) % 65536).toNat / 256 % 256 ::
          (f32CastI16 (v.val * 256) % 65536).toNat % 256 :: rest } : SMCVal).type = b.type
        from rfl, htype]; rintro ⟨h, -⟩; exact absurd h (by decide))]
  rw [if_pos (by exact ⟨htype, hsize⟩)]
  rw [show ({ b with bytes :=
        (f32CastI16 (v.val * 256) % 65536).toNat / 256 % 256 ::
          (f32CastI16 (v.val * 256) % 65536).toNat % 256 :: rest } : SMCVal).bytes =
      (f32CastI16 (v.val * 256) % 65536).toNat / 256 % 256 ::
        (f32CastI16 (v.val * 256) % 65536).toNat % 256 :: rest from rfl]
  rw [be16bytes_cons _ _ hw, toSigned16_twos _ hz1 hz2]

/-- C1 witness: the amended theorem applied to v = 3/512 over a zeroed
sp78 buffer. -/
theorem C1_witness :
    ((⟨TYPE_SP78, 2, zeros32⟩ : SMCVal)).type = TYPE_SP78 ∧
    (write_f32 ⟨false, Rat.divInt 3 512⟩ ⟨TYPE_SP78, 2, zeros32⟩).1 = some () ∧
      f32_from_smc (write_f32 ⟨false, Rat.divInt 3 512⟩ ⟨TYPE_SP78, 2, zeros32⟩).2 =
        some ((f32CastI16 ((⟨false, Rat.divInt 3 512⟩ : F32).val * 256) : ℚ) / 256) :=
  ⟨rfl, C1_sp78_roundtrip_trunc ⟨false, Rat.divInt 3 512⟩ ⟨TYPE_SP78, 2, zeros32⟩
    rfl rfl (by decide)⟩

/-- The quantization the original claim C1 asserts, taken from the
spec's words: "quantizes as round(v*256)/256". -/
def sp78_round_spec (v : ℚ) : ℚ := ((round (v * 256) : ℤ) : ℚ) / 256

/-- C1 counterexample: at v = 3/512 (an exact f32, v*256 = 3/2) the code
encodes the truncated word 1 and decodes back 1/256, while the claimed
quantization round(v*256)/256 is 2/256.  The claim as stated is
therefore false: the sp78 encoder truncates toward zero, it does not
round. -/
theorem C1_counterexample :
    f32_from_smc (write_f32 ⟨false, Rat.divInt 3 512⟩ ⟨TYPE_SP78, 2, zeros32⟩).2 =
        some (Rat.divInt 1 256) ∧
      sp78_round_spec (Rat.divInt 3 512) = Rat.divInt 2 256 ∧
      (Rat.divInt 1 256 : ℚ) ≠ Rat.divInt 2 256 := by
  have hmul : (Rat.divInt 3 512 : ℚ) * 256 = Rat.divInt 3 2 := by
    rw [Rat.divInt_eq_div, Rat.divInt_eq_div]
    norm_num
  have hval : (⟨false, Rat.divInt 3 512⟩ : F32).val = Rat.divInt 3 512 := rfl
  have hcast : f32CastI16 ((⟨false, Rat.divInt 3 512⟩ : F32).val * 256) = 1 := by
    rw [hval, hmul]
    decide
  refine ⟨?_, ?_, by decide⟩
  · rw [write_f32, if_neg (by decide), if_pos (by exact ⟨rfl, rfl⟩), hcast]
    rw [show ((1 : ℤ) % 65536).toNat = 1 by decide]
    rw [f32_from_smc, if_neg (by decide), if_pos (by exact ⟨rfl, rfl⟩)]
    rw [show (setBE16 ⟨TYPE_SP78, 2, zeros32⟩ 1).bytes = 0 :: 1 :: List.replicate 30 0
      from rfl]
    rw [show be16bytes (0 :: 1 :: List.replicate 30 0) = 1 from rfl]
    rw [show toSigned16 1 = 1 from rfl]
    rw [Rat.divInt_eq_div]
    norm_num
  · rw [sp78_round_spec, hmul, Rat.divInt_eq_div, Rat.divInt_eq_div]
    norm_num [round_eq]

/- Register table walker (src/keys.rs) and fan walker (src/fans.rs).
The driver lookups the walkers map over — `smc.get_key(i)` resp.
`smc.get_fan(id)`, whose facade bodies are not under src/ — are
abstract fetch functions; the walker logic itself is embedded verbatim.
Positions are u32 (Keys) resp. u8 (Fans), modelled as ℕ with the
explicit bounds the code enforces. -/

def U32MAX : ℕ := 4294967295

structure KeysState where
  len : ℕ
  pos : ℕ
  deriving DecidableEq

/-- src/keys.rs `Keys::next`, lines 34-46: fetch index `pos`, advance
`pos`, and collapse the walker (`pos = len`) when the fetch errs. -/
def keysNext {α : Type} (f : ℕ → Except SMCError α) (s : KeysState) :
    Option (Except SMCError α) × KeysState :=
  if s.len > s.pos then
    match f s.pos with
    | .ok x => (some (.ok x), { s with pos := s.pos + 1 })
    | .error e => (some (.error e), { s with pos := s.len })
  else (none, s)

/-- Wrapping u32 `pos - 1` — release-mode semantics of the underflowing
subtraction in `Keys::last` (debug builds panic on it). -/
def u32wsub1 (p : ℕ) : ℕ := if p = 0 then U32MAX else p - 1

/-- src/keys.rs `Keys::last`, lines 60-70: sets `len = pos - 1` (sic)
and then delegates to `next`, discarding the consumed walker. -/
def keysLast {α : Type} (f : ℕ → Except SMCError α) (s : KeysState) :
    Option (Except SMCError α) :=
  if s.len > s.pos then (keysNext f { s with len := u32wsub1 s.pos }).1
  else none

/-- src/keys.rs `Keys::nth`, lines 72-85: a step count above u32::MAX
collapses the walker; otherwise `pos` moves by `checked_add` saturated
at `len`, and one `next` is taken. -/
def keysNth {α : Type} (f : ℕ → Except SMCError α) (s : KeysState) (n : ℕ) :
    Option (Except SMCError α) × KeysState :=
  if n > U32MAX then (none, { s with pos := s.len })
  else
    keysNext f
      { s with pos := if s.pos + n ≤ U32MAX then min (s.pos + n) s.len else s.len }

/-- src/keys.rs `Keys::next_back`, lines 96-103: decrement `len`, then
fetch index `len` (no error collapse in this direction). -/
def keysNextBack {α : Type} (f : ℕ → Except SMCError α) (s : KeysState) :
    Option (Except SMCError α) × KeysState :=
  if s.len > s.pos then (some (f (s.len - 1)), { s with len := s.len - 1 })
  else (none, s)

structure FansState where
  len : ℕ
  pos : ℕ
  deriving DecidableEq

/-- src/fans.rs `Fans::next`, lines 408-418 (`OneDigit::new_unchecked`
is the index itself; `get_fan` is the abstract fetch `g`). -/
def fansNext {α : Type} (g : ℕ → Except SMCError α) (s : FansState) :
    Option (Except SMCError α) × FansState :=
  if s.len > s.pos then
    match g s.pos with
    | .ok x => (some (.ok x), { s with pos := s.pos + 1 })
    | .error e => (some (.error e), { s with pos := s.len })
  else (none, s)

/-- Wrapping u8 `pos - 1` (release-mode semantics, as for `u32wsub1`). -/
def u8wsub1 (p : ℕ) : ℕ := if p = 0 then 255 else p - 1

/-- src/fans.rs `Fans::last`, lines 432-442: same `len = pos - 1` shape
as `Keys::last`, over u8. -/
def fansLast {α : Type} (g : ℕ → Except SMCError α) (s : FansState) :
    Option (Except SMCError α) :=
  if s.len > s.pos then (fansNext g { s with len := u8wsub1 s.pos }).1
  else none

/-- src/fans.rs `Fans::nth`, lines 444-457: step counts above u8::MAX
collapse the walker; otherwise `checked_add` saturated at `len`. -/
def fansNth {α : Type} (g : ℕ → Except SMCError α) (s : FansState) (n : ℕ) :
    Option (Except SMCError α) × FansState :=
  if n > 255 then (none, { s with pos := s.len })
  else
    fansNext g { s with pos := if s.pos + n ≤ 255 then min (s.pos + n) s.len else s.len }

/-- src/fans.rs `Fans::next_back`, lines 467-478: fetches
`get_fan(self.pos)` — the front of the remaining range — and then
shrinks `len` (to `len - 1` on success, to `pos` on error). -/
def fansNextBack {α : Type} (g : ℕ → Except SMCError α) (s : FansState) :
    Option (Except SMCError α) × FansState :=
  if s.len > s.pos then
    match g s.pos with
    | .ok x => (some (.ok x), { s with len := s.len - 1 })
    | .error e => (some (.error e), { s with len := s.pos })
  else (none, s)

/-- Call `next_back` n times on the Keys walker, collecting the yielded
results in order. -/
def drainBackKeys {α : Type} (f : ℕ → Except SMCError α) :
    KeysState → ℕ → List (Option (Except SMCError α))
  | _, 0 => []
  | s, n + 1 => (keysNextBack f s).1 :: drainBackKeys f (keysNextBack f s).2 n

/-- Call `next_back` n times on the Fans walker, collecting the yielded
results in order. -/
def drainBackFans {α : Type} (g : ℕ → Except SMCError α) :
    FansState → ℕ → List (Option (Except SMCError α))
  | _, 0 => []
  | s, n + 1 => (fansNextBack g s).1 :: drainBackFans g (fansNextBack g s).2 n

/-- C3 (code bug): `last()` assigns `len = pos - 1` where the intended
state change is `pos = len - 1`.  Evaluating the embedded code: on a
walker with pos = 1, len = 3 (remaining indices 1 and 2, so pos < len)
both `Keys::last` and `Fans::last` return `none` instead of the item at
index len - 1 = 2; and on a fresh walker (pos = 0, len = 3) the
subtraction underflows — a panic in debug builds, while the wrapped
release-mode length makes `last` yield the item at index 0, again not
index 2. -/
theorem C3_last_collapses_bug :
    keysLast (fun i => (.ok i : Except SMCError ℕ)) ⟨3, 1⟩ = none ∧
    fansLast (fun i => (.ok i : Except SMCError ℕ)) ⟨3, 1⟩ = none ∧
    keysLast (fun i => (.ok i : Except SMCError ℕ)) ⟨3, 0⟩ = some (.ok 0) ∧
    fansLast (fun i => (.ok i : Except SMCError ℕ)) ⟨3, 0⟩ = some (.ok 0) := by
  decide

/-- C4 (code bug): `Keys::next_back` decrements `len` and fetches the new
index `len`, exactly as the claim states — six backward calls over a
table of length 5 yield indices 4, 3, 2, 1, 0 and then `none`.  But
`Fans::next_back` fetches `get_fan(self.pos)` instead: the same six
backward calls yield the fan at index 0 five times.  The claim's
universal statement fails on the Fans walker. -/
theorem C4_fans_next_back_fetches_front_bug :
    drainBackKeys (fun i => (.ok i : Except SMCError ℕ)) ⟨5, 0⟩ 6 =
      [some (.ok 4), some (.ok 3), some (.ok 2), some (.ok 1), some (.ok 0), none] ∧
    drainBackFans (fun i => (.ok i : Except SMCError ℕ)) ⟨5, 0⟩ 6 =
      [some (.ok 0), some (.ok 0), some (.ok 0), some (.ok 0), some (.ok 0), none] := by
  decide

/-- C8: `nth(n)` saturates at the remaining range for both walkers: the
result is `none` exactly when n reaches past the remaining range (in
particular whenever n exceeds the representable index range, where the
code collapses the walker outright), the tracked length is unchanged,
`pos ≤ len` is preserved, and in every `none` case the walker has
collapsed to pos = len.  Confirms the claim. -/
theorem C8_nth_saturates :
    (∀ (α : Type) (f : ℕ → Except SMCError α) (s : KeysState) (n : ℕ),
      s.pos ≤ s.len → s.len ≤ U32MAX →
        (((keysNth f s n).1 = none ↔ s.len ≤ s.pos + n) ∧
          (keysNth f s n).2.len = s.len ∧
          (keysNth f s n).2.pos ≤ (keysNth f s n).2.len ∧
          (s.len ≤ s.pos + n → (keysNth f s n).2.pos = s.len))) ∧
    (∀ (α : Type) (g : ℕ → Except SMCError α) (s : FansState) (n : ℕ),
      s.pos ≤ s.len → s.len ≤ 255 →
        (((fansNth g s n).1 = none ↔ s.len ≤ s.pos + n) ∧
          (fansNth g s n).2.len = s.len ∧
          (fansNth g s n).2.pos ≤ (fansNth g s n).2.len ∧
          (s.len ≤ s.pos + n → (fansNth g s n).2.pos = s.len))) := by
  constructor
  · intro α f s n hpl hlm
    by_cases hge : s.len ≤ s.pos + n
    · have hcol : keysNth f s n = (none, ⟨s.len, s.len⟩) := by
        rw [keysNth]
        by_cases hn : n > U32MAX
        · rw [if_pos hn]
        · rw [if_neg hn,
            show (if s.pos + n ≤ U32MAX then min (s.pos + n) s.len else s.len) = s.len by
              split <;> omega]
          simp [keysNext]
      rw [hcol]
      exact ⟨by simp; omega, rfl, le_refl _, fun _ => rfl⟩
    · have hlt : s.pos + n < s.len := by omega
      have hstep : keysNth f s n = keysNext f ⟨s.len, s.pos + n⟩ := by
        rw [keysNth, if_neg (by omega),
          show (if s.pos + n ≤ U32MAX then min (s.pos + n) s.len else s.len) = s.pos + n by
            split <;> omega]
      have hres : keysNext f ⟨s.len, s.pos + n⟩ =
          match f (s.pos + n) with
          | .ok x => (some (.ok x), ⟨s.len, s.pos + n + 1⟩)
          | .error e => (some (.error e), ⟨s.len, s.len⟩) := by
        rw [keysNext, if_pos (by simpa using hlt)]
      rw [hstep, hres]
      rcases f (s.pos + n) with e | x
      · exact ⟨by simp; omega, rfl, le_refl _, fun h => absurd h (by omega)⟩
      · exact ⟨by simp; omega, rfl, by simp; omega, fun h => absurd h (by omega)⟩
  · intro α g s n hpl hlm
    by_cases hge : s.len ≤ s.pos + n
    · have hcol : fansNth g s n = (none, ⟨s.len, s.len⟩) := by
        rw [fansNth]
        by_cases hn : n > 255
        · rw [if_pos hn]
        · rw [if_neg hn,
            show (if s.pos + n ≤ 255 then min (s.pos + n) s.len else s.len) = s.len by
              split <;> omega]
          simp [fansNext]
      rw [hcol]
      exact ⟨by simp; omega, rfl, le_refl _, fun _ => rfl⟩
    · have hlt : s.pos + n < s.len := by omega
      have hstep : fansNth g s n = fansNext g ⟨s.len, s.pos + n⟩ := by
        rw [fansNth, if_neg (by omega),
          show (if s.pos + n ≤ 255 then min (s.pos + n) s.len else s.len) = s.pos + n by
            split <;> omega]
      have hres : fansNext g ⟨s.len, s.pos + n⟩ =
          match g (s.pos + n) with
          | .ok x => (some (.ok x), ⟨s.len, s.pos + n + 1⟩)
          | .error e => (some (.error e), ⟨s.len, s.len⟩) := by
        rw [fansNext, if_pos (by simpa using hlt)]
      rw [hstep, hres]
      rcases g (s.pos + n) with e | x
      · exact ⟨by simp; omega, rfl, le_refl _, fun h => absurd h (by omega)⟩
      · exact ⟨by simp; omega, rfl, by simp; omega, fun h => absurd h (by omega)⟩

/-- C8 witness: the claim theorem applied to `nth(1000)` on fresh Keys
and Fans walkers over tables of length 3. -/
theorem C8_witness :
    ((0 ≤ 3 ∧ (3 : ℕ) ≤ U32MAX) ∧ (3 : ℕ) ≤ 255) ∧
    ((keysNth (fun i => (.ok i : Except SMCError ℕ)) ⟨3, 0⟩ 1000).1 = none ↔
      (3 : ℕ) ≤ 0 + 1000) ∧
    (keysNth (fun i => (.ok i : Except SMCError ℕ)) ⟨3, 0⟩ 1000).2.pos = 3 ∧
    ((fansNth (fun i => (.ok i : Except SMCError ℕ)) ⟨3, 0⟩ 1000).1 = none ↔
      (3 : ℕ) ≤ 0 + 1000) ∧
    (fansNth (fun i => (.ok i : Except SMCError ℕ)) ⟨3, 0⟩ 1000).2.pos = 3 :=
  ⟨⟨⟨by decide, by decide⟩, by decide⟩,
    (C8_nth_saturates.1 ℕ (fun i => .ok i) ⟨3, 0⟩ 1000 (by decide) (by decide)).1,
    (C8_nth_saturates.1 ℕ (fun i => .ok i) ⟨3, 0⟩ 1000 (by decide) (by decide)).2.2.2
      (by decide),
    (C8_nth_saturates.2 ℕ (fun i => .ok i) ⟨3, 0⟩ 1000 (by decide) (by decide)).1,
    (C8_nth_saturates.2 ℕ (fun i => .ok i) ⟨3, 0⟩ 1000 (by decide) (by decide)).2.2.2
      (by decide)⟩

/- Fan subsystem (src/fans.rs).  The SMC facade it runs on — the typed
read_key / write_key plumbing and the driver transaction — is not under
src/ in the final module layout (src/lib.rs is the superseded
historical variant); it is modelled from the spec below where
indicated.  The fan-subsystem logic itself (validation gates, bitmask
read-modify-write, key formatting) is embedded from src/fans.rs. -/

/-- Modelled from the spec: the Driver collaborator (section 6) together
with the state the claims observe — per-key metadata `keyInfo(code) ->
(typeTag, size)`, a byte store that faithfully stores writes, and the
list of write transactions issued (to count writes reaching the
driver). -/
structure Driver where
  keyInfo : String → Option (String × ℕ)
  store : String → List ℕ
  writeLog : List (String × List ℕ)

/-- Modelled from the spec: `write_key` (section 2 data flow) — query
the register's declared type and size, encode into a fresh zeroed
buffer of that type (conversions build on a zeroed SMCBytes), and issue
one write transaction; an encode failure is the ConversionToFailed
error, `SMCError::TryInto`, and issues no transaction. -/
def write_key (d : Driver) (code : String) (enc : SMCVal → Option SMCVal) :
    Except SMCError Unit × Driver :=
  match d.keyInfo code with
  | none => (.error (.keyNotFound code), d)
  | some (t, sz) =>
    match enc ⟨t, sz, zeros32⟩ with
    | none => (.error .tryInto, d)
    | some v =>
      (.ok (), ⟨d.keyInfo, fun c => if c = code then v.bytes else d.store c,
        d.writeLog ++ [(code, v.bytes)]⟩)

/-- Modelled from the spec: the u16-typed `read_key` — query the
register's declared type and size, read its bytes, decode them via
FromSMC for u16; an unaccepted tag/length pair is the
ConversionFromFailed error carrying the raw value. -/
def read_key_u16 (d : Driver) (code : String) : Except SMCError ℕ :=
  match d.keyInfo code with
  | none => .error (.keyNotFound code)
  | some (t, sz) =>
    match u16_from_smc ⟨t, sz, d.store code⟩ with
    | some n => .ok n
    | none => .error (.tryFrom ⟨t, sz, d.store code⟩)

/-- The shared managed-fans bitmask register key. -/
def FSKey : String := "FS! "

/-- Fan register key `F{id}..` built by `fcc_format!`; for a OneDigit id
(0..=9) this always yields a four-character code, so the fallible
conversion in the source cannot fail. -/
def fanKey (id : ℕ) (tag : String) : String := "F" ++ toString id ++ tag

/-- src/fans.rs `SMC::managed_fans`, lines 363-366: read the 16-bit
bitmask register "FS! ". -/
def managed_fans (d : Driver) : Except SMCError ℕ := read_key_u16 d FSKey

/-- src/fans.rs `is_managed`, lines 58-60: a fan is managed iff bit `id`
of the bitmask reads as zero. -/
def is_managed (d : Driver) (id : ℕ) : Except SMCError Bool :=
  match managed_fans d with
  | .error e => .error e
  | .ok m => .ok (m &&& (1 <<< id) == 0)

/-- The mask `fan_set_managed` computes from the bitmask it just read:
`bitmask & !mask` (clear bit `id`) to manage the fan, `bitmask | mask`
(set bit `id`) for manual override; `!mask` on u16 is
`65535 ^^^ mask`. -/
def computedMask (managed : Bool) (bitmask id : ℕ) : ℕ :=
  if managed then bitmask &&& (65535 ^^^ (1 <<< id)) else bitmask ||| (1 <<< id)

/-- src/fans.rs `SMC::fan_set_managed`, lines 368-389: read-modify-write
of the shared bitmask, skipping the write entirely when the computed
mask equals the bitmask just read.  `CheckedBitmask::into_smc` is
`util::write_u16`. -/
def fan_set_managed (d : Driver) (id : ℕ) (managed : Bool) :
    Except SMCError Unit × Driver :=
  match managed_fans d with
  | .error e => (.error e, d)
  | .ok bitmask =>
    if bitmask ≠ computedMask managed bitmask id then
      write_key d FSKey (write_u16 (computedMask managed bitmask id))
    else (.ok (), d)

/-- `CheckedSpeed::into_smc` (src/fans.rs lines 90-95): `util::write_f32`
as a buffer encoder. -/
def write_f32enc (n : F32) (v : SMCVal) : Option SMCVal :=
  match write_f32 n v with
  | (some _, v2) => some v2
  | (none, _) => none

/-- src/fans.rs `set_min_speed`, lines 99-110: the gate rejects
`speed <= 0.0 || speed > max` with `SMCError::TryInto` before any
driver interaction. -/
def set_min_speed (d : Driver) (id : ℕ) (mx speed : F32) :
    Except SMCError Unit × Driver :=
  if speed.val ≤ 0 ∨ mx.val < speed.val then (.error .tryInto, d)
  else write_key d (fanKey id "Mn") (write_f32enc speed)

/-- src/fans.rs `set_current_speed`, lines 112-129: the gate rejects
`speed < min || speed > max` with `SMCError::TryInto` before any driver
interaction; on success it writes the target-speed register F{id}Tg —
and nothing else. -/
def set_current_speed (d : Driver) (id : ℕ) (mn mx speed : F32) :
    Except SMCError Unit × Driver :=
  if speed.val < mn.val ∨ mx.val < speed.val then (.error .tryInto, d)
  else write_key d (fanKey id "Tg") (write_f32enc speed)

/-- The bytes a positive speed encodes to in an fpe2 register. -/
def fpe2bytes (speed : F32) : List ℕ :=
  (setBE16 ⟨TYPE_FPE2, 2, zeros32⟩ (f32CastU16 (speed.val * 4))).bytes

/-- The driver after one write transaction of word w to "FS! ". -/
def fsWritten (d : Driver) (w : ℕ) : Driver :=
  ⟨d.keyInfo,
    fun c => if c = FSKey then (setBE16 ⟨TYPE_U16, 2, zeros32⟩ w).bytes else d.store c,
    d.writeLog ++ [(FSKey, (setBE16 ⟨TYPE_U16, 2, zeros32⟩ w).bytes)]⟩

/- Evaluation lemmas for the modelled facade. -/

lemma write_key_ok (d : Driver) (code : String) (enc : SMCVal → Option SMCVal)
    (t : String) (sz : ℕ) (v : SMCVal)
    (hinfo : d.keyInfo code = some (t, sz)) (henc : enc ⟨t, sz, zeros32⟩ = some v) :
    write_key d code enc =
      (.ok (), ⟨d.keyInfo, fun c => if c = code then v.bytes else d.store c,
        d.writeLog ++ [(code, v.bytes)]⟩) := by
  rw [write_key, hinfo]
  simp only [henc]

lemma u16_from_smc_u16 (bs : List ℕ) :
    u16_from_smc ⟨TYPE_U16, 2, bs⟩ = some (be16bytes bs) := by
  rw [u16_from_smc, if_neg (show ¬(TYPE_U16 = TYPE_U8 ∧ (2 : ℕ) = 1) by decide),
    if_pos (show TYPE_U16 = TYPE_U16 ∧ (2 : ℕ) = 2 from ⟨rfl, rfl⟩)]

lemma managed_fans_eval (d : Driver) (hinfo : d.keyInfo FSKey = some (TYPE_U16, 2)) :
    managed_fans d = .ok (be16bytes (d.store FSKey)) := by
  rw [managed_fans, read_key_u16, hinfo]
  simp only [u16_from_smc_u16]

lemma write_u16_u16 (w : ℕ) (bs : List ℕ) :
    write_u16 w ⟨TYPE_U16, 2, bs⟩ = some (setBE16 ⟨TYPE_U16, 2, bs⟩ w) := by
  rw [write_u16, if_pos ⟨rfl, rfl⟩]

lemma write_f32enc_fpe2 (n : F32) (bs : List ℕ) (hs : n.sign = false) :
    write_f32enc n ⟨TYPE_FPE2, 2, bs⟩ =
      some (setBE16 ⟨TYPE_FPE2, 2, bs⟩ (f32CastU16 (n.val * 4))) := by
  rw [write_f32enc, write_f32, if_pos ⟨rfl, rfl⟩, hs]
  simp

lemma be16bytes_lt (bs : List ℕ) : be16bytes bs < 65536 := by
  rcases bs with _ | ⟨a, _ | ⟨b, tl⟩⟩
  · simp [be16bytes]
  · simp [be16bytes]
  · simp only [be16bytes]
    omega

lemma setBE16_bytes (t : String) (sz : ℕ) (w : ℕ) :
    (setBE16 ⟨t, sz, zeros32⟩ w).bytes =
      w / 256 % 256 :: w % 256 :: List.replicate 30 0 := rfl

lemma be16bytes_setBE16_zeros (t : String) (sz : ℕ) (w : ℕ) (hw : w < 65536) :
    be16bytes ((setBE16 ⟨t, sz, zeros32⟩ w).bytes) = w := by
  rw [setBE16_bytes, be16bytes_cons _ _ hw]

lemma fan_set_managed_skip (d : Driver) (id : ℕ) (managed : Bool)
    (hinfo : d.keyInfo FSKey = some (TYPE_U16, 2))
    (heq : computedMask managed (be16bytes (d.store FSKey)) id = be16bytes (d.store FSKey)) :
    fan_set_managed d id managed = (.ok (), d) := by
  rw [fan_set_managed]
  simp only [managed_fans_eval d hinfo, heq]
  simp

lemma fan_set_managed_write (d : Driver) (id : ℕ) (managed : Bool)
    (hinfo : d.keyInfo FSKey = some (TYPE_U16, 2))
    (hne : computedMask managed (be16bytes (d.store FSKey)) id ≠ be16bytes (d.store FSKey)) :
    fan_set_managed d id managed =
      (.ok (), fsWritten d (computedMask managed (be16bytes (d.store FSKey)) id)) := by
  rw [fan_set_managed]
  simp only [managed_fans_eval d hinfo]
  rw [if_pos (Ne.symm hne)]
  rw [write_key_ok d FSKey _ TYPE_U16 2 _ hinfo (write_u16_u16 _ _)]
  rfl

/- Bit-level helper lemmas. -/

lemma testBit_complMask (id : ℕ) (hid : id ≤ 9) :
    (65535 ^^^ (1 <<< id)).testBit id = false := by
  rw [Nat.testBit_xor, Nat.shiftLeft_eq, one_mul, Nat.testBit_two_pow_self,
    show (65535 : ℕ) = 2 ^ 16 - 1 by norm_num, Nat.testBit_two_pow_sub_one]
  simp [show id < 16 by omega]

lemma land_compl_testBit (m id : ℕ) (hid : id ≤ 9) :
    (m &&& (65535 ^^^ (1 <<< id))).testBit id = false := by
  rw [Nat.testBit_land, testBit_complMask id hid, Bool.and_false]

lemma lor_mask_testBit (m id : ℕ) : (m ||| (1 <<< id)).testBit id = true := by
  rw [Nat.testBit_lor, Nat.shiftLeft_eq, one_mul, Nat.testBit_two_pow_self, Bool.or_true]

lemma land_compl_idem (m id : ℕ) :
    (m &&& (65535 ^^^ (1 <<< id))) &&& (65535 ^^^ (1 <<< id)) =
      m &&& (65535 ^^^ (1 <<< id)) := by
  rw [Nat.land_assoc]
  congr 1
  apply Nat.eq_of_testBit_eq
  intro i
  rw [Nat.testBit_land, Bool.and_self]

lemma computedMask_lt (managed : Bool) (bitmask id : ℕ)
    (hm : bitmask < 65536) (hid : id ≤ 9) :
    computedMask managed bitmask id < 65536 := by
  have hmask : 1 <<< id < 65536 := by
    rw [Nat.shiftLeft_eq, one_mul]
    calc 2 ^ id ≤ 2 ^ 9 := Nat.pow_le_pow_right (by norm_num) hid
      _ < 65536 := by norm_num
  rw [computedMask]
  split
  · exact lt_of_le_of_lt Nat.and_le_left hm
  · have h16 : (65536 : ℕ) = 2 ^ 16 := by norm_num
    rw [h16] at hm hmask ⊢
    exact Nat.or_lt_two_pow hm hmask

/-- C9: `fan_set_managed` is a read-modify-write of the shared 16-bit
bitmask register: the driver write is skipped — the call is a pure
no-op — exactly when the computed mask equals the bitmask just read,
and otherwise exactly one write transaction is issued.  Consequently,
on a faithful store, setting managed=true twice in a row for a fan
whose bit is currently set issues exactly one write: the second call
reads back the stored mask, computes the same value, and skips.
Confirms the claim. -/
theorem C9_fan_set_managed_rmw (d : Driver) (id : ℕ) (hid : id ≤ 9)
    (hinfo : d.keyInfo FSKey = some (TYPE_U16, 2)) :
    (∀ managed : Bool,
      (computedMask managed (be16bytes (d.store FSKey)) id = be16bytes (d.store FSKey) →
        fan_set_managed d id managed = (.ok (), d)) ∧
      (computedMask managed (be16bytes (d.store FSKey)) id ≠ be16bytes (d.store FSKey) →
        (fan_set_managed d id managed).1 = .ok () ∧
          (fan_set_managed d id managed).2.writeLog.length = d.writeLog.length + 1)) ∧
    (Nat.testBit (be16bytes (d.store FSKey)) id = true →
      (fan_set_managed d id true).1 = .ok () ∧
        (fan_set_managed d id true).2.writeLog.length = d.writeLog.length + 1 ∧
        fan_set_managed (fan_set_managed d id true).2 id true =
          (.ok (), (fan_set_managed d id true).2)) := by
  have hm : be16bytes (d.store FSKey) < 65536 := be16bytes_lt _
  constructor
  · intro managed
    refine ⟨fun heq => fan_set_managed_skip d id managed hinfo heq, fun hne => ?_⟩
    rw [fan_set_managed_write d id managed hinfo hne]
    exact ⟨rfl, by simp [fsWritten]⟩
  · intro hbit
    have hne : computedMask true (be16bytes (d.store FSKey)) id ≠
        be16bytes (d.store FSKey) := by
      intro h
      have htb := congrArg (fun x => Nat.testBit x id) h
      simp only at htb
      rw [show computedMask true (be16bytes (d.store FSKey)) id =
          be16bytes (d.store FSKey) &&& (65535 ^^^ (1 <<< id)) from rfl] at htb
      rw [land_compl_testBit _ _ hid, hbit] at htb
      exact Bool.false_ne_true htb
    rw [fan_set_managed_write d id true hinfo hne]
    have hwlt : computedMask true (be16bytes (d.store FSKey)) id < 65536 :=
      computedMask_lt true _ id hm hid
    have hinfo1 : (fsWritten d (computedMask true (be16bytes (d.store FSKey)) id)).keyInfo
        FSKey = some (TYPE_U16, 2) := hinfo
    have hm1 : be16bytes
        ((fsWritten d (computedMask true (be16bytes (d.store FSKey)) id)).store FSKey) =
        computedMask true (be16bytes (d.store FSKey)) id := by
      rw [show (fsWritten d (computedMask true (be16bytes (d.store FSKey)) id)).store FSKey =
        (setBE16 ⟨TYPE_U16, 2, zeros32⟩
          (computedMask true (be16bytes (d.store FSKey)) id)).bytes by simp [fsWritten]]
      exact be16bytes_setBE16_zeros _ _ _ hwlt
    have hskip : computedMask true
        (be16bytes ((fsWritten d
          (computedMask true (be16bytes (d.store FSKey)) id)).store FSKey)) id =
        be16bytes ((fsWritten d
          (computedMask true (be16bytes (d.store FSKey)) id)).store FSKey) := by
      rw [hm1]
      exact land_compl_idem _ _
    exact ⟨rfl, by simp [fsWritten], fan_set_managed_skip _ id true hinfo1 hskip⟩

/-- A concrete driver for the managed-bitmask witnesses: "FS! " is
declared ui16 of size 2 and stores the bitmask 1 (bit 0 set, so fan 0
is not managed). -/
def dFS : Driver :=
  ⟨fun c => if c = FSKey then some (TYPE_U16, 2) else none,
    fun _ => 0 :: 1 :: List.replicate 30 0, []⟩

/-- C9 witness: the claim theorem applied at fan 0 of `dFS`: two
managed=true calls in a row issue exactly one write. -/
theorem C9_witness :
    ((0 : ℕ) ≤ 9 ∧ dFS.keyInfo FSKey = some (TYPE_U16, 2) ∧
      Nat.testBit (be16bytes (dFS.store FSKey)) 0 = true) ∧
    ((fan_set_managed dFS 0 true).1 = .ok () ∧
      (fan_set_managed dFS 0 true).2.writeLog.length = dFS.writeLog.length + 1 ∧
      fan_set_managed (fan_set_managed dFS 0 true).2 0 true =
        (.ok (), (fan_set_managed dFS 0 true).2)) :=
  ⟨⟨by decide, by decide, by decide⟩,
    (C9_fan_set_managed_rmw dFS 0 (by decide) (by decide)).2 (by decide)⟩

/-- C10: the managed-bitmask polarity is inverted from the usual bit-set
convention: `is_managed` is true exactly when bit `id` of the "FS! "
bitmask reads as zero, a successful `set_managed(true)` leaves that bit
clear, and a successful `set_managed(false)` leaves it set.  Confirms
the claim. -/
theorem C10_managed_bit_polarity (d : Driver) (id : ℕ) (hid : id ≤ 9)
    (hinfo : d.keyInfo FSKey = some (TYPE_U16, 2)) :
    (is_managed d id = .ok true ↔ Nat.testBit (be16bytes (d.store FSKey)) id = false) ∧
    (∀ d', fan_set_managed d id true = (.ok (), d') →
      Nat.testBit (be16bytes (d'.store FSKey)) id = false) ∧
    (∀ d', fan_set_managed d id false = (.ok (), d') →
      Nat.testBit (be16bytes (d'.store FSKey)) id = true) := by
  have hm : be16bytes (d.store FSKey) < 65536 := be16bytes_lt _
  refine ⟨?_, ?_, ?_⟩
  · rw [is_managed]
    simp only [managed_fans_eval d hinfo, Except.ok.injEq, beq_iff_eq]
    rw [Nat.shiftLeft_eq, one_mul, Nat.and_two_pow]
    cases htb : Nat.testBit (be16bytes (d.store FSKey)) id <;> simp
  · intro d' heq
    by_cases hc : computedMask true (be16bytes (d.store FSKey)) id =
        be16bytes (d.store FSKey)
    · rw [fan_set_managed_skip d id true hinfo hc] at heq
      have hd : d = d' := congrArg Prod.snd heq
      have htb := land_compl_testBit (be16bytes (d.store FSKey)) id hid
      rw [show computedMask true (be16bytes (d.store FSKey)) id =
        be16bytes (d.store FSKey) &&& (65535 ^^^ (1 <<< id)) from rfl] at hc
      rw [hc] at htb
      rw [← hd]
      exact htb
    · rw [fan_set_managed_write d id true hinfo hc] at heq
      have hd : fsWritten d (computedMask true (be16bytes (d.store FSKey)) id) = d' :=
        congrArg Prod.snd heq
      rw [← hd]
      rw [show (fsWritten d (computedMask true (be16bytes (d.store FSKey)) id)).store FSKey =
        (setBE16 ⟨TYPE_U16, 2, zeros32⟩
          (computedMask true (be16bytes (d.store FSKey)) id)).bytes by simp [fsWritten]]
      rw [be16bytes_setBE16_zeros _ _ _ (computedMask_lt true _ id hm hid)]
      exact land_compl_testBit _ _ hid
  · intro d' heq
    by_cases hc : computedMask false (be16bytes (d.store FSKey)) id =
        be16bytes (d.store FSKey)
    · rw [fan_set_managed_skip d id false hinfo hc] at heq
      have hd : d = d' := congrArg Prod.snd heq
      have htb := lor_mask_testBit (be16bytes (d.store FSKey)) id
      rw [show computedMask false (be16bytes (d.store FSKey)) id =
        be16bytes (d.store FSKey) ||| (1 <<< id) from rfl] at hc
      rw [hc] at htb
      rw [← hd]
      exact htb
    · rw [fan_set_managed_write d id false hinfo hc] at heq
      have hd : fsWritten d (computedMask false (be16bytes (d.store FSKey)) id) = d' :=
        congrArg Prod.snd heq
      rw [← hd]
      rw [show (fsWritten d (computedMask false (be16bytes (d.store FSKey)) id)).store FSKey =
        (setBE16 ⟨TYPE_U16, 2, zeros32⟩
          (computedMask false (be16bytes (d.store FSKey)) id)).bytes by simp [fsWritten]]
      rw [be16bytes_setBE16_zeros _ _ _ (computedMask_lt false _ id hm hid)]
      exact lor_mask_testBit _ _
  
/-- C10 witness: the claim theorem applied at fan 0 of `dFS` (bitmask 1:
bit 0 set, so both sides of the polarity equivalence are false). -/
theorem C10_witness :
    ((0 : ℕ) ≤ 9 ∧ dFS.keyInfo FSKey = some (TYPE_U16, 2)) ∧
    (is_managed dFS 0 = .ok true ↔ Nat.testBit (be16bytes (dFS.store FSKey)) 0 = false) :=
  ⟨⟨by decide, by decide⟩, (C10_managed_bit_polarity dFS 0 (by decide) (by decide)).1⟩

/- Helper lemmas for the speed-setting claims. -/

lemma fanKey_tg_ne_FSKey (id : ℕ) (hid : id ≤ 9) : FSKey ≠ fanKey id "Tg" := by
  interval_cases id <;> decide

lemma set_current_speed_ok (d : Driver) (id : ℕ) (mn mx speed : F32)
    (hinfo : d.keyInfo (fanKey id "Tg") = some (TYPE_FPE2, 2))
    (hs : speed.sign = false) (h1 : mn.val ≤ speed.val) (h2 : speed.val ≤ mx.val) :
    set_current_speed d id mn mx speed =
      (.ok (), ⟨d.keyInfo,
        fun c => if c = fanKey id "Tg" then fpe2bytes speed else d.store c,
        d.writeLog ++ [(fanKey id "Tg", fpe2bytes speed)]⟩) := by
  rw [set_current_speed, if_neg (by push_neg; exact ⟨h1, h2⟩)]
  rw [write_key_ok d _ _ TYPE_FPE2 2 _ hinfo (write_f32enc_fpe2 speed zeros32 hs)]
  rfl

lemma set_min_speed_ok (d : Driver) (id : ℕ) (mx speed : F32)
    (hinfo : d.keyInfo (fanKey id "Mn") = some (TYPE_FPE2, 2))
    (hs : speed.sign = false) (h1 : 0 < speed.val) (h2 : speed.val ≤ mx.val) :
    set_min_speed d id mx speed =
      (.ok (), ⟨d.keyInfo,
        fun c => if c = fanKey id "Mn" then fpe2bytes speed else d.store c,
        d.writeLog ++ [(fanKey id "Mn", fpe2bytes speed)]⟩) := by
  rw [set_min_speed, if_neg (by push_neg; exact ⟨h1, h2⟩)]
  rw [write_key_ok d _ _ TYPE_FPE2 2 _ hinfo (write_f32enc_fpe2 speed zeros32 hs)]
  rfl

/-- C2 (amended): in the canonical fans.rs variant with min ≤ speed ≤ max
(speed sign-bit clear, target register declared fpe2 of size 2),
`set_current_speed` succeeds and issues exactly one write — to the
target-speed register F{id}Tg — leaving the "FS! " bitmask bytes, and
hence the fan's managed flag, completely unchanged: it does NOT
implicitly disable managed (firmware automatic control) mode. -/
theorem C2_set_current_speed_keeps_managed (d : Driver) (id : ℕ) (mn mx speed : F32)
    (hid : id ≤ 9)
    (hinfo : d.keyInfo (fanKey id "Tg") = some (TYPE_FPE2, 2))
    (hs : speed.sign = false) (h1 : mn.val ≤ speed.val) (h2 : speed.val ≤ mx.val) :
    (set_current_speed d id mn mx speed).1 = .ok () ∧
    (set_current_speed d id mn mx speed).2.store FSKey = d.store FSKey ∧
    (set_current_speed d id mn mx speed).2.keyInfo = d.keyInfo ∧
    is_managed (set_current_speed d id mn mx speed).2 id = is_managed d id ∧
    (set_current_speed d id mn mx speed).2.writeLog =
      d.writeLog ++ [(fanKey id "Tg", fpe2bytes speed)] := by
  rw [set_current_speed_ok d id mn mx speed hinfo hs h1 h2]
  have hne := fanKey_tg_ne_FSKey id hid
  refine ⟨rfl, by simp [hne], rfl, ?_, rfl⟩
  simp [is_managed, managed_fans, read_key_u16, hne]

/-- The concrete driver of the spec's own example: fan 0's target-speed
register is declared fpe2/2, the "FS! " bitmask register ui16/2, and
every register stores zeroed bytes — so bit 0 of the bitmask is 0 and
fan 0 is initially managed by firmware. -/
def dC2 : Driver :=
  ⟨fun c => if c = fanKey 0 "Tg" then some (TYPE_FPE2, 2)
    else if c = FSKey then some (TYPE_U16, 2) else none,
    fun _ => zeros32, []⟩

/-- C2 counterexample: setting fan 0's current speed to 1500 with
min = 500 and max = 3000 succeeds, but `is_managed` reads true both
before and after the call — the managed flag is not cleared, while the
claim requires the successful write to implicitly disable the fan's
managed mode. -/
theorem C2_counterexample :
    is_managed dC2 0 = .ok true ∧
    (set_current_speed dC2 0 ⟨false, 500⟩ ⟨false, 3000⟩ ⟨false, 1500⟩).1 = .ok () ∧
    is_managed (set_current_speed dC2 0 ⟨false, 500⟩ ⟨false, 3000⟩ ⟨false, 1500⟩).2 0 =
      .ok true := by
  have h := set_current_speed_ok dC2 0 ⟨false, 500⟩ ⟨false, 3000⟩ ⟨false, 1500⟩
    (by decide) rfl (by decide) (by decide)
  refine ⟨by decide, ?_, ?_⟩
  · rw [h]
  · rw [h]
    have hne := fanKey_tg_ne_FSKey 0 (by decide)
    simp [is_managed, managed_fans, read_key_u16, hne]
    decide

/-- C2 witness: the amended theorem applied to the same concrete run
(fan 0, min 500, max 3000, speed 1500 over `dC2`). -/
theorem C2_witness :
    ((0 : ℕ) ≤ 9 ∧ dC2.keyInfo (fanKey 0 "Tg") = some (TYPE_FPE2, 2) ∧
      (⟨false, 500⟩ : F32).val ≤ (⟨false, 1500⟩ : F32).val ∧
      (⟨false, 1500⟩ : F32).val ≤ (⟨false, 3000⟩ : F32).val) ∧
    ((set_current_speed dC2 0 ⟨false, 500⟩ ⟨false, 3000⟩ ⟨false, 1500⟩).1 = .ok () ∧
      (set_current_speed dC2 0 ⟨false, 500⟩ ⟨false, 3000⟩ ⟨false, 1500⟩).2.store FSKey =
        dC2.store FSKey ∧
      is_managed (set_current_speed dC2 0 ⟨false, 500⟩ ⟨false, 3000⟩ ⟨false, 1500⟩).2 0 =
        is_managed dC2 0) :=
  ⟨⟨by decide, by decide, by decide, by decide⟩,
    ⟨(C2_set_current_speed_keeps_managed dC2 0 ⟨false, 500⟩ ⟨false, 3000⟩ ⟨false, 1500⟩
        (by decide) (by decide) rfl (by decide) (by decide)).1,
      (C2_set_current_speed_keeps_managed dC2 0 ⟨false, 500⟩ ⟨false, 3000⟩ ⟨false, 1500⟩
        (by decide) (by decide) rfl (by decide) (by decide)).2.1,
      (C2_set_current_speed_keeps_managed dC2 0 ⟨false, 500⟩ ⟨false, 3000⟩ ⟨false, 1500⟩
        (by decide) (by decide) rfl (by decide) (by decide)).2.2.2.1⟩⟩

/-- C5 (amended): for a requested speed whose sign bit is clear and fan
registers declared fpe2 of size 2, `set_min_speed` fails with
`SMCError::TryInto` (the error the domain safety gate returns) exactly
when ¬(0 < speed ≤ max), `set_current_speed` fails with the same error
exactly when ¬(min ≤ speed ≤ max), and in the validation-failure cases
the driver is completely untouched (the gate fires before any driver
interaction).  The sign proviso is forced by the counterexample: a
sign-negative in-range speed also yields TryInto, from the fpe2 encoder
rather than the gate. -/
theorem C5_speed_validation_gate (d : Driver) (id : ℕ) (mn mx speed : F32)
    (hinfoMn : d.keyInfo (fanKey id "Mn") = some (TYPE_FPE2, 2))
    (hinfoTg : d.keyInfo (fanKey id "Tg") = some (TYPE_FPE2, 2))
    (hsign : speed.sign = false) :
    ((set_min_speed d id mx speed).1 = .error .tryInto ↔
      ¬(0 < speed.val ∧ speed.val ≤ mx.val)) ∧
    (¬(0 < speed.val ∧ speed.val ≤ mx.val) → (set_min_speed d id mx speed).2 = d) ∧
    ((set_current_speed d id mn mx speed).1 = .error .tryInto ↔
      ¬(mn.val ≤ speed.val ∧ speed.val ≤ mx.val)) ∧
    (¬(mn.val ≤ speed.val ∧ speed.val ≤ mx.val) →
      (set_current_speed d id mn mx speed).2 = d) := by
  have hmin : ((set_min_speed d id mx speed).1 = .error .tryInto ↔
      ¬(0 < speed.val ∧ speed.val ≤ mx.val)) ∧
      (¬(0 < speed.val ∧ speed.val ≤ mx.val) → (set_min_speed d id mx speed).2 = d) := by
    by_cases hc : speed.val ≤ 0 ∨ mx.val < speed.val
    · have hng : ¬(0 < speed.val ∧ speed.val ≤ mx.val) := by
        rcases hc with h | h
        · rintro ⟨h1, -⟩; linarith
        · rintro ⟨-, h2⟩; linarith
      rw [set_min_speed, if_pos hc]
      exact ⟨iff_of_true rfl hng, fun _ => rfl⟩
    · push_neg at hc
      rw [set_min_speed_ok d id mx speed hinfoMn hsign hc.1 hc.2]
      exact ⟨iff_of_false (by simp) (not_not_intro hc), fun h => absurd hc h⟩
  have hcur : ((set_current_speed d id mn mx speed).1 = .error .tryInto ↔
      ¬(mn.val ≤ speed.val ∧ speed.val ≤ mx.val)) ∧
      (¬(mn.val ≤ speed.val ∧ speed.val ≤ mx.val) →
        (set_current_speed d id mn mx speed).2 = d) := by
    by_cases hc : speed.val < mn.val ∨ mx.val < speed.val
    · have hng : ¬(mn.val ≤ speed.val ∧ speed.val ≤ mx.val) := by
        rcases hc with h | h
        · rintro ⟨h1, -⟩; linarith
        · rintro ⟨-, h2⟩; linarith
      rw [set_current_speed, if_pos hc]
      exact ⟨iff_of_true rfl hng, fun _ => rfl⟩
    · push_neg at hc
      rw [set_current_speed_ok d id mn mx speed hinfoTg hsign hc.1 hc.2]
      exact ⟨iff_of_false (by simp) (not_not_intro hc), fun h => absurd hc h⟩
  exact ⟨hmin.1, hmin.2, hcur.1, hcur.2⟩

/-- A concrete driver for the validation-gate claims: fan 0's min- and
target-speed registers are declared fpe2/2 and zeroed. -/
def dC5 : Driver :=
  ⟨fun c => if c = fanKey 0 "Mn" then some (TYPE_FPE2, 2)
    else if c = fanKey 0 "Tg" then some (TYPE_FPE2, 2) else none,
    fun _ => zeros32, []⟩

/-- C5 counterexample: with min = -10, max = 3000 and requested speed
-5 — a sign-negative value satisfying min ≤ speed ≤ max — the original
claim says no validation error is returned, yet `set_current_speed`
returns `SMCError::TryInto`: the gate passes but the fpe2 encoder
rejects the negative value, producing the very same error value.  The
claimed "exactly when" equivalence therefore fails as stated. -/
theorem C5_counterexample :
    ((⟨true, 10⟩ : F32).val ≤ (⟨true, 5⟩ : F32).val ∧
      (⟨true, 5⟩ : F32).val ≤ (⟨false, 3000⟩ : F32).val) ∧
    (set_current_speed dC5 0 ⟨true, 10⟩ ⟨false, 3000⟩ ⟨true, 5⟩).1 = .error .tryInto := by
  exact ⟨⟨by decide, by decide⟩, by decide⟩

/-- C5 witness: the amended theorem applied at fan 0 of `dC5` with
min = 500, max = 3000, speed = 1500. -/
theorem C5_witness :
    (dC5.keyInfo (fanKey 0 "Mn") = some (TYPE_FPE2, 2) ∧
      dC5.keyInfo (fanKey 0 "Tg") = some (TYPE_FPE2, 2) ∧
      (⟨false, 1500⟩ : F32).sign = false) ∧
    (((set_min_speed dC5 0 ⟨false, 3000⟩ ⟨false, 1500⟩).1 = .error .tryInto ↔
      ¬(0 < (⟨false, 1500⟩ : F32).val ∧
        (⟨false, 1500⟩ : F32).val ≤ (⟨false, 3000⟩ : F32).val)) ∧
    (¬(0 < (⟨false, 1500⟩ : F32).val ∧
        (⟨false, 1500⟩ : F32).val ≤ (⟨false, 3000⟩ : F32).val) →
      (set_min_speed dC5 0 ⟨false, 3000⟩ ⟨false, 1500⟩).2 = dC5) ∧
    ((set_current_speed dC5 0 ⟨false, 500⟩ ⟨false, 3000⟩ ⟨false, 1500⟩).1 =
        .error .tryInto ↔
      ¬((⟨false, 500⟩ : F32).val ≤ (⟨false, 1500⟩ : F32).val ∧
        (⟨false, 1500⟩ : F32).val ≤ (⟨false, 3000⟩ : F32).val)) ∧
    (¬((⟨false, 500⟩ : F32).val ≤ (⟨false, 1500⟩ : F32).val ∧
        (⟨false, 1500⟩ : F32).val ≤ (⟨false, 3000⟩ : F32).val) →
      (set_current_speed dC5 0 ⟨false, 500⟩ ⟨false, 3000⟩ ⟨false, 1500⟩).2 = dC5)) :=
  ⟨⟨by decide, by decide, rfl⟩,
    C5_speed_validation_gate dC5 0 ⟨false, 500⟩ ⟨false, 3000⟩ ⟨false, 1500⟩
      (by decide) (by decide) rfl⟩
